import Mathlib

/-!
Shallow embedding of the message-routing subsystem of the repository
(`src/workflow/agent_router.py`): the `Message` / `RoutingRule` data types,
the `AgentRouter` state, and the `add_routing_rule`, `route_message` and
`process_message` operations, together with the default routing rule set.

Modelling notes:
* Python `Any`-typed message content is modelled as `String` (the router only
  ever uses `str(content)`), and `datetime` timestamps are omitted: they are
  wall-clock effects no claim depends on.  The elapsed processing time measured
  inside `process_message` is passed in as an explicit parameter `t : ℚ`.
* Python exceptions are modelled by `Except PyExc`, where `PyExc` records the
  exception's type name and its `str(e)` text.
* Python dicts are modelled as insertion-ordered association lists; `{**d, k: v}`
  is `Metadata.set`, dict lookup is `find?` on the key.
-/

namespace AgentRouterModel

/-- The `MessageType` enumeration of `agent_router.py` (lines 15–21):
the closed set of message kinds. -/
inductive MessageType where
  | TASK
  | RESULT
  | ERROR
  | CONTROL
  | DATA
deriving DecidableEq, Repr

/-- The `value` string of each `MessageType` enum member, as declared in the
Python `Enum` body. -/
def MessageType.value : MessageType → String
  | .TASK => "task"
  | .RESULT => "result"
  | .ERROR => "error"
  | .CONTROL => "control"
  | .DATA => "data"

/-- Python `MessageType(s)`: enum lookup by value.  Returns `none` where the
Python constructor raises `ValueError` (a string outside the enum's values). -/
def MessageType.fromString (s : String) : Option MessageType :=
  if s = "task" then some .TASK
  else if s = "result" then some .RESULT
  else if s = "error" then some .ERROR
  else if s = "control" then some .CONTROL
  else if s = "data" then some .DATA
  else none

/-- The `RoutingStrategy` enumeration of `agent_router.py` (lines 24–29). -/
inductive RoutingStrategy where
  | SEQUENTIAL
  | PARALLEL
  | CONDITIONAL
  | BROADCAST
deriving DecidableEq, Repr

/-- Values stored in a message's `metadata` dict: the router stores strings,
numbers, booleans, lists of (stringified) contents, and elapsed-time numbers. -/
inductive MetaValue where
  | mstr : String → MetaValue
  | mnat : Nat → MetaValue
  | mbool : Bool → MetaValue
  | mlist : List String → MetaValue
  | mrat : ℚ → MetaValue
deriving DecidableEq, Repr

/-- A Python dict `str -> value`, as an insertion-ordered association list. -/
abbrev Metadata := List (String × MetaValue)

/-- Dict lookup: the value at key `k`, if present. -/
def Metadata.get (d : Metadata) (k : String) : Option MetaValue :=
  (d.find? (fun p => p.1 == k)).map (·.2)

/-- Dict update `{**d, k: v}` (one key): overwrites the value at an existing
key in place, otherwise appends the new key at the end (Python dict order). -/
def Metadata.set (d : Metadata) (k : String) (v : MetaValue) : Metadata :=
  if d.any (fun p => p.1 == k) then
    d.map (fun p => if p.1 == k then (k, v) else p)
  else
    d ++ [(k, v)]

/-- The `Message` dataclass of `agent_router.py` (lines 32–46), minus the
wall-clock `timestamp` field.  `message_type` is already the enum type: the
dataclass's `__post_init__` string conversion is modelled by `mkMessageRaw`. -/
structure Message where
  id : String
  sender : String
  recipients : List String
  message_type : MessageType
  content : String
  metadata : Metadata := []
  priority : Int := 0
deriving DecidableEq, Repr

/-- Constructing a `Message` with a raw string in the `message_type` field:
`__post_init__` (lines 44–46) converts it via `MessageType(value)`, which
raises (here: `none`) for a string outside the enum's values. -/
def mkMessageRaw (id sender : String) (recipients : List String)
    (message_type : String) (content : String) (metadata : Metadata)
    (priority : Int) : Option Message :=
  (MessageType.fromString message_type).map fun mt =>
    { id := id, sender := sender, recipients := recipients,
      message_type := mt, content := content, metadata := metadata,
      priority := priority }

/-- The `RoutingRule` dataclass of `agent_router.py` (lines 49–56). -/
structure RoutingRule where
  condition : Message → Bool
  target_agents : List String
  strategy : RoutingStrategy
  priority : Int := 0
  description : String := ""

/-- A Python exception value: its type name and its `str(e)` text. -/
structure PyExc where
  ename : String
  emsg : String
deriving DecidableEq, Repr

/-- An agent as the router sees it: an async `process` capability (which may
raise), and the declared capability / limitation lists
(`get_capabilities` / `get_limitations` of `BaseAgent`). -/
structure Agent where
  process : String → Except PyExc String
  capabilities : List String := []
  limitations : List String := []

/-- The router's `stats` dict (lines 72–77). -/
structure Stats where
  messages_processed : Nat := 0
  messages_routed : Nat := 0
  errors : Nat := 0
  avg_processing_time : ℚ := 0
deriving DecidableEq, Repr

/-- The `AgentRouter` state (lines 62–77): the insertion-ordered agents dict,
the rule list, the message history and the stats record.  The config loader,
API key and asyncio queue are construction-time / IO plumbing with no bearing
on the routing logic. -/
structure AgentRouter where
  agents : List (String × Agent) := []
  routing_rules : List RoutingRule := []
  message_history : List Message := []
  stats : Stats := {}

/-- Python `self.agents.get(agent_id)`: dict lookup in the agents map. -/
def AgentRouter.agentsGet (router : AgentRouter) (aid : String) : Option Agent :=
  (router.agents.find? (fun p => p.1 == aid)).map (·.2)

/-- Python `agent_id in self.agents`: key membership in the agents map. -/
def AgentRouter.hasAgent (router : AgentRouter) (aid : String) : Bool :=
  router.agents.any (fun p => p.1 == aid)

/-- The keys of the agents dict, in registration order. -/
def AgentRouter.agentIds (router : AgentRouter) : List String :=
  router.agents.map (·.1)

/-- Descending-priority comparison used by `self.routing_rules.sort(key=lambda
x: x.priority, reverse=True)`: Python's sort is stable, and with
`reverse=True` it is a stable sort into non-increasing key order, which is
exactly stable `mergeSort` under this `le`. -/
def ruleLE (a b : RoutingRule) : Bool := decide (b.priority ≤ a.priority)

/-- `add_routing_rule` (lines 114–119): append the rule, then stably re-sort
the whole list by priority, highest first. -/
def addRoutingRule (router : AgentRouter) (rule : RoutingRule) : AgentRouter :=
  { router with routing_rules := (router.routing_rules ++ [rule]).mergeSort ruleLE }

/-- Derived message built by one iteration of the SEQUENTIAL branch
(lines 260–275): id `{original}_to_{agent}`, singleton recipients, metadata
extended with `step = i+1`, `total_steps`, and `previous_results` = the
stringified contents of the derived messages accumulated so far. -/
def mkSeqMsg (message : Message) (total : Nat) (i : Nat) (aid : String)
    (prev : List String) : Message :=
  { id := message.id ++ "_to_" ++ aid
    sender := message.sender
    recipients := [aid]
    message_type := message.message_type
    content := message.content
    metadata := ((message.metadata.set "step" (.mnat (i + 1))).set
        "total_steps" (.mnat total)).set "previous_results" (.mlist prev)
    priority := message.priority }

/-- The SEQUENTIAL `for i, agent_id in enumerate(available_agents)` loop
(lines 260–275), with its `routed_messages` accumulator. -/
def seqLoop (message : Message) (total : Nat) :
    List String → Nat → List Message → List Message
  | [], _, acc => acc
  | aid :: rest, i, acc =>
      seqLoop message total rest (i + 1)
        (acc ++ [mkSeqMsg message total i aid (acc.map (·.content))])

/-- Derived message built by the PARALLEL branch (lines 277–293). -/
def mkParMsg (message : Message) (aid : String) : Message :=
  { id := message.id ++ "_to_" ++ aid
    sender := message.sender
    recipients := [aid]
    message_type := message.message_type
    content := message.content
    metadata := (message.metadata.set "parallel" (.mbool true)).set
        "agent_id" (.mstr aid)
    priority := message.priority }

/-- Derived message built by the BROADCAST branch (lines 295–310). -/
def mkBroadcastMsg (message : Message) (aid : String) : Message :=
  { id := message.id ++ "_broadcast_" ++ aid
    sender := message.sender
    recipients := [aid]
    message_type := message.message_type
    content := message.content
    metadata := message.metadata.set "broadcast" (.mbool true)
    priority := message.priority }

/-- `route_message` (lines 228–319): collect the matching rules (the rule list
is kept priority-sorted, so the first match is the highest-priority match),
return empty on no match; filter the firing rule's targets down to registered
agents, return empty when none is registered; expand per the rule's strategy
(CONDITIONAL has no branch in the switch, so it yields no derived messages);
finally bump `messages_routed` by the number of derived messages.  Returns the
derived messages and the updated router. -/
def routeMessage (router : AgentRouter) (message : Message) :
    List Message × AgentRouter :=
  let matching_rules := router.routing_rules.filter (fun rule => rule.condition message)
  match matching_rules with
  | [] => ([], router)
  | rule :: _ =>
    let available_agents := rule.target_agents.filter (fun aid => router.hasAgent aid)
    match available_agents with
    | [] => ([], router)
    | _ :: _ =>
      let routed_messages : List Message :=
        match rule.strategy with
        | .SEQUENTIAL => seqLoop message available_agents.length available_agents 0 []
        | .PARALLEL => available_agents.map (mkParMsg message)
        | .BROADCAST => router.agentIds.map (mkBroadcastMsg message)
        | .CONDITIONAL => []
      (routed_messages,
        { router with stats :=
          { router.stats with messages_routed :=
              router.stats.messages_routed + routed_messages.length } })

/-- Does `l` start with `pat`? (character-list prefix test). -/
def startsWithChars : List Char → List Char → Bool
  | [], _ => true
  | _ :: _, [] => false
  | a :: as, b :: bs => a == b && startsWithChars as bs

/-- Does `pat` occur as a contiguous run inside `l`? -/
def hasInfixChars (pat : List Char) : List Char → Bool
  | [] => startsWithChars pat []
  | c :: rest => startsWithChars pat (c :: rest) || hasInfixChars pat rest

/-- Substring test `pat in s` on Python strings, on the underlying character
lists. -/
def strContains (s pat : String) : Bool := hasInfixChars pat.data s.data

/-- Python `str.lower()` on one character, restricted to the alphabets the
default rules' keywords use: ASCII `A`–`Z` and Cyrillic `А`–`Я` map down by
32 code points, `Ё` (U+0401) maps to `ё` (U+0451); every other character is
unchanged. -/
def pyLowerChar (c : Char) : Char :=
  if 0x41 ≤ c.toNat ∧ c.toNat ≤ 0x5A then Char.ofNat (c.toNat + 32)
  else if 0x410 ≤ c.toNat ∧ c.toNat ≤ 0x42F then Char.ofNat (c.toNat + 32)
  else if c.toNat = 0x401 then Char.ofNat 0x451
  else c

/-- Python `str.lower()`, character-wise (see `pyLowerChar`). -/
def pyLower (s : String) : String := ⟨s.data.map pyLowerChar⟩

/-- Keywords of the `is_data_analysis` default rule (line 128). -/
def analysisKeywords : List String := ["анализ", "данные", "статистика", "тренды"]

/-- `is_data_analysis` (lines 125–128): a TASK whose lowercased stringified
content contains one of the data-analysis keywords. -/
def is_data_analysis (m : Message) : Bool :=
  m.message_type == .TASK &&
    analysisKeywords.any (fun kw => strContains (pyLower m.content) kw)

/-- Keywords of the `is_code_generation` default rule (line 142). -/
def codeGenKeywords : List String := ["код", "программа", "функция", "класс", "алгоритм"]

/-- `is_code_generation` (lines 139–142). -/
def is_code_generation (m : Message) : Bool :=
  m.message_type == .TASK &&
    codeGenKeywords.any (fun kw => strContains (pyLower m.content) kw)

/-- Keywords of the `is_code_review` default rule (line 156). -/
def codeReviewKeywords : List String := ["ревью", "проверка", "код", "качество"]

/-- `is_code_review` (lines 153–156). -/
def is_code_review (m : Message) : Bool :=
  m.message_type == .TASK &&
    codeReviewKeywords.any (fun kw => strContains (pyLower m.content) kw)

/-- Keywords of the `is_project_management` default rule (line 170). -/
def projectMgmtKeywords : List String := ["проект", "план", "управление", "задачи", "сроки"]

/-- `is_project_management` (lines 167–170). -/
def is_project_management (m : Message) : Bool :=
  m.message_type == .TASK &&
    projectMgmtKeywords.any (fun kw => strContains (pyLower m.content) kw)

/-- Keywords of the `is_idea_generation` default rule (line 184). -/
def ideaKeywords : List String := ["идея", "инновация", "креатив", "решение"]

/-- `is_idea_generation` (lines 181–184). -/
def is_idea_generation (m : Message) : Bool :=
  m.message_type == .TASK &&
    ideaKeywords.any (fun kw => strContains (pyLower m.content) kw)

/-- Keywords of the `is_quality_assessment` default rule (line 198). -/
def qualityKeywords : List String := ["качество", "оценка", "проверка", "аудит"]

/-- `is_quality_assessment` (lines 195–198). -/
def is_quality_assessment (m : Message) : Bool :=
  m.message_type == .TASK &&
    qualityKeywords.any (fun kw => strContains (pyLower m.content) kw)

/-- `is_complex_task` (lines 209–211): a TASK whose stringified content is
longer than 200 characters. -/
def is_complex_task (m : Message) : Bool :=
  m.message_type == .TASK && decide (200 < m.content.length)

/-- Every keyword any default keyword rule consults. -/
def defaultKeywords : List String :=
  analysisKeywords ++ codeGenKeywords ++ codeReviewKeywords ++
    projectMgmtKeywords ++ ideaKeywords ++ qualityKeywords

/-- The seven default rules of `add_default_routing_rules` (lines 121–221),
in the order the source registers them. -/
def defaultRules : List RoutingRule :=
  [{ condition := is_data_analysis, target_agents := ["analyst"],
     strategy := .SEQUENTIAL, priority := 10,
     description := "Анализ данных -> Data Analyst" },
   { condition := is_code_generation, target_agents := ["coder"],
     strategy := .SEQUENTIAL, priority := 10,
     description := "Генерация кода -> Code Developer" },
   { condition := is_code_review, target_agents := ["reviewer"],
     strategy := .SEQUENTIAL, priority := 9,
     description := "Ревью кода -> Code Reviewer" },
   { condition := is_project_management, target_agents := ["manager"],
     strategy := .SEQUENTIAL, priority := 8,
     description := "Управление проектами -> Project Manager" },
   { condition := is_idea_generation, target_agents := ["ideator"],
     strategy := .SEQUENTIAL, priority := 7,
     description := "Генерация идей -> Idea Generator" },
   { condition := is_quality_assessment, target_agents := ["assessor"],
     strategy := .SEQUENTIAL, priority := 6,
     description := "Оценка качества -> Quality Assessor" },
   { condition := is_complex_task, target_agents := ["analyst", "coder", "reviewer"],
     strategy := .SEQUENTIAL, priority := 5,
     description := "Комплексные задачи -> Analyst -> Coder -> Reviewer" }]

/-- `add_default_routing_rules` (lines 121–221): registers the seven default
rules one `add_routing_rule` call at a time. -/
def addDefaultRoutingRules (router : AgentRouter) : AgentRouter :=
  defaultRules.foldl addRoutingRule router

/-- A router holding exactly the default rule set, with the given agents map
and stats. -/
def defaultRouter (agents : List (String × Agent)) (st : Stats) : AgentRouter :=
  addDefaultRoutingRules { agents := agents, routing_rules := [], stats := st }

/-- The `try` body of `process_message` (lines 325–334): reading
`message.recipients[0]` raises `IndexError` on an empty list; a missing agent
raises `ValueError`; the agent's `process` call may itself raise.  On success
it yields the processing agent's id, the agent, and the result. -/
def processTry (router : AgentRouter) (message : Message) :
    Except PyExc (String × Agent × String) :=
  match message.recipients with
  | [] => .error ⟨"IndexError", "list index out of range"⟩
  | aid :: _ =>
    match router.agentsGet aid with
    | none => .error ⟨"ValueError", "Агент " ++ aid ++ " не найден"⟩
    | some agent =>
      match agent.process message.content with
      | .error e => .error e
      | .ok result => .ok (aid, agent, result)

/-- The exception (if any) raised inside `process_message`'s `try` body. -/
def pmRaise (router : AgentRouter) (message : Message) : Option PyExc :=
  match processTry router message with
  | .error e => some e
  | .ok _ => none

/-- `process_message` (lines 321–380).  On success: a RESULT response from the
agent back to the original sender (no recipients when the sender is
`"system"`), carrying the original message id, the measured processing time
`t`, and the agent's capability/limitation lists; the running average and
`messages_processed` are updated.  On any exception: an ERROR response whose
sender falls back to `"system"` on an empty recipients list, carrying
`"Ошибка обработки: " ++ str(e)`, and `errors` is bumped. -/
def processMessage (router : AgentRouter) (message : Message) (t : ℚ) :
    Message × AgentRouter :=
  match processTry router message with
  | .ok (aid, agent, result) =>
      let st := router.stats
      (({ id := "response_" ++ message.id
          sender := aid
          recipients := if message.sender ≠ "system" then [message.sender] else []
          message_type := .RESULT
          content := result
          metadata := [("original_message_id", .mstr message.id),
                       ("processing_time", .mrat t),
                       ("agent_capabilities", .mlist agent.capabilities),
                       ("agent_limitations", .mlist agent.limitations)]
          priority := message.priority } : Message),
       { router with stats :=
         { st with
           avg_processing_time :=
             (st.avg_processing_time * st.messages_processed + t) /
               (st.messages_processed + 1)
           messages_processed := st.messages_processed + 1 } })
  | .error e =>
      (({ id := "error_" ++ message.id
          sender := match message.recipients with
                    | [] => "system"
                    | aid :: _ => aid
          recipients := if message.sender ≠ "system" then [message.sender] else []
          message_type := .ERROR
          content := "Ошибка обработки: " ++ e.emsg
          metadata := [("original_message_id", .mstr message.id),
                       ("error_type", .mstr e.ename),
                       ("processing_time", .mrat t)]
          priority := message.priority } : Message),
       { router with stats :=
         { router.stats with errors := router.stats.errors + 1 } })

/-- Closed form of the SEQUENTIAL loop `seqLoop`: starting at loop index `i`
with an accumulator holding `i` earlier derived messages (all of which carry
the original content), the derived message for the `j`-th remaining target
carries step `i + j + 1` and `i + j` previous results. -/
def seqClosed (message : Message) (total : Nat) : List String → Nat → List Message
  | [], _ => []
  | aid :: rest, i =>
      mkSeqMsg message total i aid (List.replicate i message.content) ::
        seqClosed message total rest (i + 1)

/-- Test fixture: an agent whose `process` succeeds, echoing its input. -/
def okAgent : Agent := { process := fun s => .ok ("done: " ++ s) }

/-- Test fixture: an agent whose `process` raises a `RuntimeError`. -/
def boomAgent : Agent := { process := fun _ => .error ⟨"RuntimeError", "boom"⟩ }

/-- Test fixture: a rule matching every message, with the given targets and
strategy. -/
def alwaysRule (targets : List String) (strat : RoutingStrategy) : RoutingRule :=
  { condition := fun _ => true, target_agents := targets, strategy := strat }

/-- Test fixture: a rule matching no message at all. -/
def neverRule (targets : List String) (strat : RoutingStrategy) : RoutingRule :=
  { condition := fun _ => false, target_agents := targets, strategy := strat }

/-- Test fixture: a TASK message from `"user"` with keyword-free content. -/
def wMsg : Message :=
  { id := "m1", sender := "user", recipients := [],
    message_type := .TASK, content := "hello world" }

/-- Test fixture: a two-agent map, `analyst` registered before `coder`. -/
def wAgents : List (String × Agent) := [("analyst", okAgent), ("coder", okAgent)]

/-- Test fixture: a router with one always-matching CONDITIONAL rule whose
target `analyst` is registered. -/
def wCondRouter : AgentRouter :=
  { agents := wAgents, routing_rules := [alwaysRule ["analyst"] .CONDITIONAL] }

/-- Test fixture: a router with one always-matching BROADCAST rule listing
only `analyst`, while both `analyst` and `coder` are registered. -/
def wBRouter : AgentRouter :=
  { agents := wAgents, routing_rules := [alwaysRule ["analyst"] .BROADCAST] }

/-- Test fixture: a router with one always-matching SEQUENTIAL rule whose
target list names two registered agents and one unregistered one. -/
def wSeqRouter : AgentRouter :=
  { agents := wAgents,
    routing_rules := [alwaysRule ["analyst", "ghost", "coder"] .SEQUENTIAL] }

/-- Test fixture: a rule-less router over the two registered test agents. -/
def wProcRouter : AgentRouter := { agents := wAgents }

/-- Test fixture: `wMsg` addressed to the registered agent `analyst`. -/
def wOkMsg : Message := { wMsg with recipients := ["analyst"] }

/-- Test fixture: `wMsg` addressed to the unregistered agent `ghost`. -/
def wBadMsg : Message := { wMsg with recipients := ["ghost"] }

/-- Counterexample fixture: a router with one registered agent and one
always-matching BROADCAST rule whose target list is empty. -/
def cexBRouter : AgentRouter :=
  { agents := [("analyst", okAgent)], routing_rules := [alwaysRule [] .BROADCAST] }

/-- Test fixture: a router whose only rule matches no message at all. -/
def wNoRuleRouter : AgentRouter :=
  { agents := wAgents, routing_rules := [neverRule ["analyst"] .SEQUENTIAL] }

/-- Test fixture: a router whose only rule matches every message but names
only the unregistered target `ghost`. -/
def wNoTgtRouter : AgentRouter :=
  { agents := wAgents, routing_rules := [alwaysRule ["ghost"] .BROADCAST] }

/-! ### Helper lemmas -/

theorem find_map_replace (k : String) (v : MetaValue) (d : Metadata)
    (h : d.any (fun p => p.1 == k) = true) :
    (d.map (fun p => if p.1 == k then (k, v) else p)).find? (fun p => p.1 == k)
      = some (k, v) := by
  induction d with
  | nil => simp at h
  | cons p rest ih =>
    by_cases hp : (p.1 == k) = true
    · rw [List.map_cons, if_pos hp]
      simp only [List.find?_cons, beq_self_eq_true]
    · have hp' : (p.1 == k) = false := by simpa using hp
      rw [List.map_cons, if_neg hp]
      simp only [List.find?_cons, hp']
      apply ih
      simpa [hp'] using h

theorem find_map_keep (k k' : String) (v : MetaValue) (hk' : (k == k') = false) :
    ∀ d : Metadata,
      (d.map (fun p => if p.1 == k then (k, v) else p)).find? (fun p => p.1 == k')
        = d.find? (fun p => p.1 == k') := by
  intro d
  induction d with
  | nil => rfl
  | cons p rest ih =>
    by_cases hp : (p.1 == k) = true
    · have hpk : p.1 = k := eq_of_beq hp
      have hq : (p.1 == k') = false := by rw [hpk]; exact hk'
      rw [List.map_cons, if_pos hp]
      simp only [List.find?_cons, hq, hk']
      exact ih
    · rw [List.map_cons, if_neg hp]
      by_cases hq : (p.1 == k') = true
      · simp only [List.find?_cons, hq]
      · have hq' : (p.1 == k') = false := by simpa using hq
        simp only [List.find?_cons, hq']
        exact ih

theorem Metadata.get_set_self (d : Metadata) (k : String) (v : MetaValue) :
    (d.set k v).get k = some v := by
  unfold Metadata.set
  split
  · rename_i h
    unfold Metadata.get
    rw [find_map_replace k v d h]
    rfl
  · rename_i h
    induction d with
    | nil => simp [Metadata.get, List.find?]
    | cons p rest ih =>
      rw [Bool.not_eq_true, List.any_cons, Bool.or_eq_false_iff] at h
      rw [List.cons_append]
      unfold Metadata.get
      simp only [List.find?_cons, h.1]
      exact ih (by simp [h.2])

theorem Metadata.get_set_ne (d : Metadata) (k k' : String) (v : MetaValue)
    (hk : (k' == k) = false) :
    (d.set k v).get k' = d.get k' := by
  have hne : k' ≠ k := ne_of_beq_false hk
  have hk' : (k == k') = false := beq_eq_false_iff_ne.mpr (Ne.symm hne)
  unfold Metadata.set
  split
  · unfold Metadata.get
    rw [find_map_keep k k' v hk' d]
  · rename_i h
    clear h
    unfold Metadata.get
    induction d with
    | nil => simp [List.find?, hk']
    | cons p rest ih =>
      by_cases hq : (p.1 == k') = true
      · rw [List.cons_append]
        simp only [List.find?_cons, hq]
      · have hq' : (p.1 == k') = false := by simpa using hq
        rw [List.cons_append]
        simp only [List.find?_cons, hq']
        exact ih

theorem seqLoop_eq_seqClosed (message : Message) (total : Nat) :
    ∀ (rest : List String) (i : Nat) (acc : List Message),
      acc.map (·.content) = List.replicate i message.content →
      seqLoop message total rest i acc = acc ++ seqClosed message total rest i := by
  intro rest
  induction rest with
  | nil => intro i acc _; simp [seqLoop, seqClosed]
  | cons aid rest ih =>
    intro i acc h
    rw [seqLoop, seqClosed, h]
    rw [ih (i + 1) (acc ++ [mkSeqMsg message total i aid (List.replicate i message.content)])
      (by simp [h, mkSeqMsg, List.replicate_succ'])]
    simp

theorem seqClosed_length (message : Message) (total : Nat) :
    ∀ (rest : List String) (i : Nat),
      (seqClosed message total rest i).length = rest.length := by
  intro rest
  induction rest with
  | nil => intro i; simp [seqClosed]
  | cons aid rest ih => intro i; simp [seqClosed, ih]

theorem seqClosed_getElem? (message : Message) (total : Nat) :
    ∀ (rest : List String) (i j : Nat),
      (seqClosed message total rest i)[j]? =
        (rest[j]?).map fun aid =>
          mkSeqMsg message total (i + j) aid (List.replicate (i + j) message.content) := by
  intro rest
  induction rest with
  | nil => intro i j; simp [seqClosed]
  | cons aid rest ih =>
    intro i j
    cases j with
    | zero => simp [seqClosed]
    | succ j =>
      simp only [seqClosed, List.getElem?_cons_succ, ih (i + 1) j]
      have : i + 1 + j = i + (j + 1) := by omega
      rw [this]

theorem seqClosed_contents (message : Message) (total : Nat) :
    ∀ (rest : List String) (i : Nat),
      (seqClosed message total rest i).map (·.content) =
        List.replicate rest.length message.content := by
  intro rest
  induction rest with
  | nil => intro i; simp [seqClosed]
  | cons aid rest ih =>
    intro i
    simp [seqClosed, mkSeqMsg, ih, List.replicate_succ]

theorem ruleLE_trans (a b c : RoutingRule) :
    ruleLE a b → ruleLE b c → ruleLE a c := by
  simp only [ruleLE, decide_eq_true_eq]
  omega

theorem ruleLE_total (a b : RoutingRule) : ruleLE a b || ruleLE b a := by
  simp only [ruleLE, Bool.or_eq_true, decide_eq_true_eq]
  omega

theorem addRules_perm :
    ∀ (ds : List RoutingRule) (r : AgentRouter),
      List.Perm ((ds.foldl addRoutingRule r).routing_rules)
        (r.routing_rules ++ ds) := by
  intro ds
  induction ds with
  | nil => intro r; simp
  | cons d ds ih =>
    intro r
    rw [List.foldl_cons]
    refine (ih (addRoutingRule r d)).trans ?_
    have h2 : List.Perm ((addRoutingRule r d).routing_rules)
        (r.routing_rules ++ [d]) := List.mergeSort_perm _ _
    simpa using h2.append_right ds

/-! ### Claim theorems -/

/-- C9: every constructible `Message` carries a `message_type` from the closed
`MessageType` enumeration, and constructing a message from a raw
`message_type` string succeeds exactly when the string is one of the five
enum values — an invalid string yields no message at all. -/
theorem message_type_closed_enum :
    (∀ mt : MessageType,
        mt ∈ [MessageType.TASK, MessageType.RESULT, MessageType.ERROR,
              MessageType.CONTROL, MessageType.DATA])
    ∧ (∀ s : String, (MessageType.fromString s).isSome = true ↔
        s ∈ ["task", "result", "error", "control", "data"])
    ∧ ∀ (id sender : String) (recipients : List String) (s content : String)
        (metadata : Metadata) (priority : Int),
        (mkMessageRaw id sender recipients s content metadata priority).isSome = true ↔
          s ∈ ["task", "result", "error", "control", "data"] := by
  have h2 : ∀ s : String, (MessageType.fromString s).isSome = true ↔
      s ∈ ["task", "result", "error", "control", "data"] := by
    intro s
    unfold MessageType.fromString
    split_ifs with h1 h2 h3 h4 h5 <;> simp_all
  refine ⟨fun mt => by cases mt <;> simp, h2, ?_⟩
  intro id sender recipients s content metadata priority
  unfold mkMessageRaw
  have hmap : ∀ (o : Option MessageType) (f : MessageType → Message),
      (o.map f).isSome = o.isSome := by
    intro o f
    cases o <;> rfl
  rw [hmap]
  exact h2 s

/-- C10: when the highest-priority matching rule has strategy CONDITIONAL and
at least one registered target, `route_message` returns the empty list (the
strategy switch has no conditional branch) and leaves `messages_routed` and
`errors` unchanged. -/
theorem route_conditional_empty (router : AgentRouter) (msg : Message)
    (rule : RoutingRule) (rest : List RoutingRule) (a : String) (as : List String)
    (hmatch : router.routing_rules.filter (fun rl => rl.condition msg) = rule :: rest)
    (hstrat : rule.strategy = .CONDITIONAL)
    (havail : rule.target_agents.filter (fun aid => router.hasAgent aid) = a :: as) :
    (routeMessage router msg).1 = []
    ∧ ((routeMessage router msg).2).stats.messages_routed = router.stats.messages_routed
    ∧ ((routeMessage router msg).2).stats.errors = router.stats.errors := by
  simp only [routeMessage, hmatch, havail, hstrat]
  simp

/-- Witness for C10: a CONDITIONAL rule with registered target `analyst`
routes to the empty list and leaves the counters untouched. -/
theorem route_conditional_empty_check :
    (routeMessage wCondRouter wMsg).1 = []
    ∧ ((routeMessage wCondRouter wMsg).2).stats.messages_routed =
      wCondRouter.stats.messages_routed
    ∧ ((routeMessage wCondRouter wMsg).2).stats.errors = wCondRouter.stats.errors :=
  route_conditional_empty wCondRouter wMsg (alwaysRule ["analyst"] .CONDITIONAL)
    [] "analyst" [] rfl rfl (by decide)

/-- C8: only the first matching rule (in the priority-sorted rule order)
fires: with non-matching rules before it and arbitrary rules after it, both
the derived messages and the resulting stats equal those of a router holding
that rule alone — no union of matching rules is ever expanded. -/
theorem route_first_match_only (agents : List (String × Agent))
    (hist : List Message) (st : Stats) (msg : Message) (r : RoutingRule)
    (pre post : List RoutingRule)
    (hpre : ∀ q ∈ pre, q.condition msg = false)
    (hr : r.condition msg = true) :
    (routeMessage ⟨agents, pre ++ r :: post, hist, st⟩ msg).1 =
      (routeMessage ⟨agents, [r], hist, st⟩ msg).1
    ∧ ((routeMessage ⟨agents, pre ++ r :: post, hist, st⟩ msg).2).stats =
      ((routeMessage ⟨agents, [r], hist, st⟩ msg).2).stats := by
  have hfilter : (pre ++ r :: post).filter (fun rl => rl.condition msg) =
      r :: post.filter (fun rl => rl.condition msg) := by
    rw [List.filter_append, List.filter_eq_nil_iff.mpr (by simpa using hpre)]
    simp [List.filter_cons, hr]
  have hsingle : ([r] : List RoutingRule).filter (fun rl => rl.condition msg) = [r] := by
    simp [List.filter_cons, hr]
  constructor <;>
  · simp only [routeMessage, hfilter, hsingle, AgentRouter.hasAgent, AgentRouter.agentIds]
    rcases List.filter (fun aid => agents.any fun p => p.1 == aid) r.target_agents with
      _ | ⟨a, as⟩ <;> rfl

/-- C1 (counterexample): a router with one registered agent (`analyst`) and a
matching BROADCAST rule whose own target list is empty routes to the *empty*
list — not to one derived message per registered agent.  The availability
check on the rule's target list runs before the strategy switch, so the
rule's target list contents do matter. -/
theorem route_broadcast_cex :
    cexBRouter.routing_rules.map RoutingRule.strategy = [RoutingStrategy.BROADCAST]
    ∧ (cexBRouter.routing_rules.all fun rl => rl.condition wMsg) = true
    ∧ cexBRouter.agentIds = ["analyst"]
    ∧ (routeMessage cexBRouter wMsg).1 = [] := by
  refine ⟨rfl, rfl, rfl, ?_⟩
  decide

/-- C1 (amended): when the highest-priority matching rule has strategy
BROADCAST *and at least one of its listed targets is registered*,
`route_message` returns exactly one derived message per currently registered
agent, in registration order, with id `{original}_broadcast_{agent}`, a
singleton recipients list, and metadata `broadcast = true` — regardless of
which agents the rule lists beyond the availability gate. -/
theorem route_broadcast_per_agent (router : AgentRouter) (msg : Message)
    (rule : RoutingRule) (rest : List RoutingRule) (a : String) (as : List String)
    (hmatch : router.routing_rules.filter (fun rl => rl.condition msg) = rule :: rest)
    (hstrat : rule.strategy = .BROADCAST)
    (havail : rule.target_agents.filter (fun aid => router.hasAgent aid) = a :: as) :
    (routeMessage router msg).1.length = router.agents.length
    ∧ (routeMessage router msg).1.map Message.id =
        router.agentIds.map (fun aid => msg.id ++ "_broadcast_" ++ aid)
    ∧ (routeMessage router msg).1.map Message.recipients =
        router.agentIds.map (fun aid => [aid])
    ∧ ∀ dm ∈ (routeMessage router msg).1,
        dm.metadata.get "broadcast" = some (.mbool true) := by
  simp only [routeMessage, hmatch, hstrat, havail]
  refine ⟨?_, ?_, ?_, ?_⟩
  · simp [AgentRouter.agentIds]
  · simp [AgentRouter.agentIds, mkBroadcastMsg]
  · simp [AgentRouter.agentIds, mkBroadcastMsg]
  · intro dm hdm
    simp only [AgentRouter.agentIds, List.map_map, List.mem_map] at hdm
    obtain ⟨q, _, rfl⟩ := hdm
    simp [Function.comp, mkBroadcastMsg, Metadata.get_set_self]

/-- Witness for the amended C1: the BROADCAST rule lists only `analyst`, yet
both registered agents receive a derived message, and a sample derived
message carries the `broadcast` metadata tag. -/
theorem route_broadcast_per_agent_check :
    (routeMessage wBRouter wMsg).1.length = wBRouter.agents.length
    ∧ (routeMessage wBRouter wMsg).1.map Message.id =
        wBRouter.agentIds.map (fun aid => wMsg.id ++ "_broadcast_" ++ aid)
    ∧ (routeMessage wBRouter wMsg).1.map Message.recipients =
        wBRouter.agentIds.map (fun aid => [aid])
    ∧ (mkBroadcastMsg wMsg "analyst").metadata.get "broadcast" =
        some (.mbool true) := by
  have h := route_broadcast_per_agent wBRouter wMsg
    (alwaysRule ["analyst"] .BROADCAST) [] "analyst" [] rfl rfl (by decide)
  exact ⟨h.1, h.2.1, h.2.2.1, h.2.2.2 (mkBroadcastMsg wMsg "analyst") (by decide)⟩

/-- C2: for a firing SEQUENTIAL rule with registered targets
`a :: as` (`N` of them), `route_message` returns `N` derived messages; the
message at index `i` has id `{original}_to_{target i}`, metadata
`step = i + 1`, `total_steps = N`, and `previous_results` equal to the
contents of the `i` derived messages created earlier in this same
expansion. -/
theorem route_sequential_steps (router : AgentRouter) (msg : Message)
    (rule : RoutingRule) (rest : List RoutingRule) (a : String) (as : List String)
    (hmatch : router.routing_rules.filter (fun rl => rl.condition msg) = rule :: rest)
    (hstrat : rule.strategy = .SEQUENTIAL)
    (havail : rule.target_agents.filter (fun aid => router.hasAgent aid) = a :: as) :
    (routeMessage router msg).1.length = (a :: as).length
    ∧ ∀ (i : Nat) (aid : String), (a :: as)[i]? = some aid →
        ((routeMessage router msg).1[i]?.map Message.id) =
          some (msg.id ++ "_to_" ++ aid)
        ∧ ((routeMessage router msg).1[i]?.bind fun dm => dm.metadata.get "step") =
          some (.mnat (i + 1))
        ∧ ((routeMessage router msg).1[i]?.bind fun dm =>
            dm.metadata.get "total_steps") = some (.mnat (a :: as).length)
        ∧ ((routeMessage router msg).1[i]?.bind fun dm =>
            dm.metadata.get "previous_results") =
          some (.mlist (((routeMessage router msg).1.take i).map (·.content))) := by
  have hresult : (routeMessage router msg).1 =
      seqClosed msg (a :: as).length (a :: as) 0 := by
    simp only [routeMessage, hmatch, hstrat, havail]
    rw [seqLoop_eq_seqClosed msg (a :: as).length (a :: as) 0 [] (by simp)]
    simp
  refine ⟨by rw [hresult]; exact seqClosed_length msg _ _ _, ?_⟩
  intro i aid hi
  have hlt : i < (a :: as).length := by
    by_contra hge
    rw [List.getElem?_eq_none (Nat.le_of_not_lt hge)] at hi
    exact Option.noConfusion hi
  have hget : (routeMessage router msg).1[i]? =
      some (mkSeqMsg msg (a :: as).length i aid (List.replicate i msg.content)) := by
    rw [hresult, seqClosed_getElem?, hi]
    simp
  have hprev : ((routeMessage router msg).1.take i).map (·.content) =
      List.replicate i msg.content := by
    rw [List.map_take, hresult, seqClosed_contents, List.take_replicate,
      Nat.min_eq_left (Nat.le_of_lt hlt)]
  rw [hget, hprev]
  have hstep : ("step" == "total_steps") = false := by decide
  have hstep2 : ("step" == "previous_results") = false := by decide
  have htot : ("total_steps" == "previous_results") = false := by decide
  refine ⟨by simp [mkSeqMsg], ?_, ?_, ?_⟩
  · simp only [Option.some_bind, mkSeqMsg]
    rw [Metadata.get_set_ne _ _ _ _ hstep2, Metadata.get_set_ne _ _ _ _ hstep,
      Metadata.get_set_self]
  · simp only [Option.some_bind, mkSeqMsg]
    rw [Metadata.get_set_ne _ _ _ _ htot, Metadata.get_set_self]
  · simp only [Option.some_bind, mkSeqMsg]
    rw [Metadata.get_set_self]

/-- Witness for C2: under the SEQUENTIAL rule listing
`analyst`, the unregistered `ghost`, and `coder`, two derived messages are
produced, and the second one (index 1, target `coder`) carries step 2 of 2
and the first message's content as its `previous_results`. -/
theorem route_sequential_steps_check :
    (routeMessage wSeqRouter wMsg).1.length = 2
    ∧ ((routeMessage wSeqRouter wMsg).1[1]?.map Message.id) =
        some ("m1" ++ "_to_" ++ "coder")
    ∧ ((routeMessage wSeqRouter wMsg).1[1]?.bind fun dm =>
        dm.metadata.get "step") = some (.mnat 2)
    ∧ ((routeMessage wSeqRouter wMsg).1[1]?.bind fun dm =>
        dm.metadata.get "total_steps") = some (.mnat 2)
    ∧ ((routeMessage wSeqRouter wMsg).1[1]?.bind fun dm =>
        dm.metadata.get "previous_results") =
        some (.mlist (((routeMessage wSeqRouter wMsg).1.take 1).map (·.content))) := by
  have h := route_sequential_steps wSeqRouter wMsg
    (alwaysRule ["analyst", "ghost", "coder"] .SEQUENTIAL) [] "analyst" ["coder"]
    rfl rfl (by decide)
  have h1 := h.2 1 "coder" rfl
  exact ⟨h.1, h1.1, h1.2.1, h1.2.2.1, h1.2.2.2⟩

/-- Witness for C8: with a non-matching rule before it and another matching
rule after it, routing behaves exactly as with the middle rule alone. -/
theorem route_first_match_only_check :
    (routeMessage ⟨wAgents, [neverRule ["coder"] .SEQUENTIAL] ++
        alwaysRule ["analyst"] .SEQUENTIAL :: [alwaysRule ["coder"] .PARALLEL],
        [], {}⟩ wMsg).1 =
      (routeMessage ⟨wAgents, [alwaysRule ["analyst"] .SEQUENTIAL], [], {}⟩ wMsg).1
    ∧ ((routeMessage ⟨wAgents, [neverRule ["coder"] .SEQUENTIAL] ++
        alwaysRule ["analyst"] .SEQUENTIAL :: [alwaysRule ["coder"] .PARALLEL],
        [], {}⟩ wMsg).2).stats =
      ((routeMessage ⟨wAgents, [alwaysRule ["analyst"] .SEQUENTIAL], [], {}⟩ wMsg).2).stats :=
  route_first_match_only wAgents [] {} wMsg (alwaysRule ["analyst"] .SEQUENTIAL)
    [neverRule ["coder"] .SEQUENTIAL] [alwaysRule ["coder"] .PARALLEL]
    (by decide) rfl

/-- C3: whenever the `try` body of `process_message` raises — empty
recipients list, unregistered recipient, or a raising agent `process` call —
the call returns (never raises) an ERROR-kind message carrying the original
message id and the exception's string representation, increments `errors`,
leaves `messages_processed` unchanged, and its sender falls back to
`"system"` exactly when the recipients list is empty. -/
theorem process_error_message (router : AgentRouter) (msg : Message) (t : ℚ)
    (e : PyExc) (h : processTry router msg = .error e) :
    ((processMessage router msg t).1).message_type = .ERROR
    ∧ ((processMessage router msg t).1).metadata.get "original_message_id" =
        some (.mstr msg.id)
    ∧ ((processMessage router msg t).1).content = "Ошибка обработки: " ++ e.emsg
    ∧ ((processMessage router msg t).2).stats.errors = router.stats.errors + 1
    ∧ ((processMessage router msg t).2).stats.messages_processed =
        router.stats.messages_processed
    ∧ (msg.recipients = [] → ((processMessage router msg t).1).sender = "system")
    ∧ (msg.recipients = [] → e = ⟨"IndexError", "list index out of range"⟩)
    ∧ (∀ aid rest, msg.recipients = aid :: rest → router.agentsGet aid = none →
        e = ⟨"ValueError", "Агент " ++ aid ++ " не найден"⟩) := by
  refine ⟨?_, ?_, ?_, ?_, ?_, ?_, ?_, ?_⟩
  · simp only [processMessage, h]
  · simp only [processMessage, h]
    simp [Metadata.get, List.find?]
  · simp only [processMessage, h]
  · simp only [processMessage, h]
  · simp only [processMessage, h]
  · intro hrec
    simp [processMessage, h, hrec]
  · intro hrec
    simp only [processTry, hrec] at h
    simpa using h.symm
  · intro aid rest hrec hnone
    simp only [processTry, hrec, hnone] at h
    simpa using h.symm

/-- Witness for C3: processing a message addressed to the unregistered agent
`ghost` yields an ERROR message with the original id, the `ValueError` text,
and an errors-counter bump. -/
theorem process_error_message_check :
    ((processMessage wProcRouter wBadMsg 1).1).message_type = .ERROR
    ∧ ((processMessage wProcRouter wBadMsg 1).1).metadata.get "original_message_id" =
        some (.mstr wBadMsg.id)
    ∧ ((processMessage wProcRouter wBadMsg 1).1).content =
        "Ошибка обработки: " ++ ("Агент " ++ "ghost" ++ " не найден")
    ∧ ((processMessage wProcRouter wBadMsg 1).2).stats.errors =
        wProcRouter.stats.errors + 1
    ∧ ((processMessage wProcRouter wBadMsg 1).2).stats.messages_processed =
        wProcRouter.stats.messages_processed := by
  have h := process_error_message wProcRouter wBadMsg 1
    ⟨"ValueError", "Агент " ++ "ghost" ++ " не найден"⟩ rfl
  exact ⟨h.1, h.2.1, h.2.2.1, h.2.2.2.1, h.2.2.2.2.1⟩

/-- C6: a successful `process_message` call returns a RESULT message whose
sender is the processing agent, whose recipients are the singleton original
sender (empty when the sender was `"system"`), and whose metadata carries the
original message id, the measured processing time, and the agent's declared
capability and limitation lists. -/
theorem process_success_message (router : AgentRouter) (msg : Message) (t : ℚ)
    (aid : String) (rest : List String) (agent : Agent) (result : String)
    (hrec : msg.recipients = aid :: rest)
    (hagent : router.agentsGet aid = some agent)
    (hok : agent.process msg.content = .ok result) :
    ((processMessage router msg t).1).message_type = .RESULT
    ∧ ((processMessage router msg t).1).sender = aid
    ∧ (msg.sender ≠ "system" →
        ((processMessage router msg t).1).recipients = [msg.sender])
    ∧ (msg.sender = "system" → ((processMessage router msg t).1).recipients = [])
    ∧ ((processMessage router msg t).1).metadata.get "original_message_id" =
        some (.mstr msg.id)
    ∧ ((processMessage router msg t).1).metadata.get "processing_time" =
        some (.mrat t)
    ∧ ((processMessage router msg t).1).metadata.get "agent_capabilities" =
        some (.mlist agent.capabilities)
    ∧ ((processMessage router msg t).1).metadata.get "agent_limitations" =
        some (.mlist agent.limitations)
    ∧ ((processMessage router msg t).1).content = result := by
  have htry : processTry router msg = .ok (aid, agent, result) := by
    simp only [processTry, hrec, hagent, hok]
  refine ⟨?_, ?_, ?_, ?_, ?_, ?_, ?_, ?_, ?_⟩
  · simp only [processMessage, htry]
  · simp only [processMessage, htry]
  · intro hs
    simp [processMessage, htry, hs]
  · intro hs
    simp [processMessage, htry, hs]
  · simp [processMessage, htry, Metadata.get, List.find?]
  · simp [processMessage, htry, Metadata.get, List.find?]
  · simp [processMessage, htry, Metadata.get, List.find?]
  · simp [processMessage, htry, Metadata.get, List.find?]
  · simp only [processMessage, htry]

/-- Witness for C6: processing `wOkMsg` with the registered `analyst` agent
produces the expected RESULT message. -/
theorem process_success_message_check :
    ((processMessage wProcRouter wOkMsg 1).1).message_type = .RESULT
    ∧ ((processMessage wProcRouter wOkMsg 1).1).sender = "analyst"
    ∧ ((processMessage wProcRouter wOkMsg 1).1).metadata.get "original_message_id" =
        some (.mstr wOkMsg.id)
    ∧ ((processMessage wProcRouter wOkMsg 1).1).metadata.get "processing_time" =
        some (.mrat 1)
    ∧ ((processMessage wProcRouter wOkMsg 1).1).metadata.get "agent_capabilities" =
        some (.mlist okAgent.capabilities)
    ∧ ((processMessage wProcRouter wOkMsg 1).1).content = "done: " ++ "hello world"
    ∧ ((processMessage wProcRouter wOkMsg 1).1).recipients = ["user"] := by
  have h := process_success_message wProcRouter wOkMsg 1 "analyst" [] okAgent
    ("done: " ++ "hello world") rfl rfl rfl
  exact ⟨h.1, h.2.1, h.2.2.2.2.1, h.2.2.2.2.2.1, h.2.2.2.2.2.2.1,
    h.2.2.2.2.2.2.2.2, h.2.2.1 (by decide)⟩

/-- C5: `messages_routed` grows by exactly the number of derived messages a
`route_message` call returns; a successful `process_message` call increments
`messages_processed` by one and leaves `errors` unchanged, while a failing
one leaves `messages_processed` unchanged and increments only `errors`. -/
theorem stats_counters (router : AgentRouter) (msg : Message) (t : ℚ) :
    ((routeMessage router msg).2).stats.messages_routed =
      router.stats.messages_routed + (routeMessage router msg).1.length
    ∧ (pmRaise router msg = none →
        ((processMessage router msg t).2).stats.messages_processed =
          router.stats.messages_processed + 1
        ∧ ((processMessage router msg t).2).stats.errors = router.stats.errors)
    ∧ ∀ e : PyExc, pmRaise router msg = some e →
        ((processMessage router msg t).2).stats.messages_processed =
          router.stats.messages_processed
        ∧ ((processMessage router msg t).2).stats.errors =
          router.stats.errors + 1 := by
  refine ⟨?_, ?_, ?_⟩
  · cases hm : List.filter (fun rule => rule.condition msg) router.routing_rules with
    | nil => simp [routeMessage, hm]
    | cons rule rest =>
      cases ha : List.filter (fun aid => router.hasAgent aid) rule.target_agents with
      | nil => simp [routeMessage, hm, ha]
      | cons a as => simp [routeMessage, hm, ha]
  · intro hnone
    cases htry : processTry router msg with
    | error e =>
      simp only [pmRaise, htry] at hnone
      exact Option.noConfusion hnone
    | ok v =>
      obtain ⟨aid, agent, result⟩ := v
      constructor
      · simp only [processMessage, htry]
      · simp only [processMessage, htry]
  · intro e he
    cases htry : processTry router msg with
    | ok v =>
      obtain ⟨aid, agent, result⟩ := v
      simp only [pmRaise, htry] at he
      exact Option.noConfusion he
    | error e' =>
      constructor
      · simp only [processMessage, htry]
      · simp only [processMessage, htry]

/-- Witness for C5: the counters move as stated on a concrete router — a
routing call, a successful processing call, and a failing processing call. -/
theorem stats_counters_check :
    ((routeMessage wProcRouter wMsg).2).stats.messages_routed =
      wProcRouter.stats.messages_routed + (routeMessage wProcRouter wMsg).1.length
    ∧ (((processMessage wProcRouter wOkMsg 1).2).stats.messages_processed =
        wProcRouter.stats.messages_processed + 1
      ∧ ((processMessage wProcRouter wOkMsg 1).2).stats.errors =
        wProcRouter.stats.errors)
    ∧ (((processMessage wProcRouter wBadMsg 1).2).stats.messages_processed =
        wProcRouter.stats.messages_processed
      ∧ ((processMessage wProcRouter wBadMsg 1).2).stats.errors =
        wProcRouter.stats.errors + 1) :=
  ⟨(stats_counters wProcRouter wMsg 1).1,
   (stats_counters wProcRouter wOkMsg 1).2.1 (by decide),
   (stats_counters wProcRouter wBadMsg 1).2.2
     ⟨"ValueError", "Агент " ++ "ghost" ++ " не найден"⟩ (by decide)⟩

theorem mergeSort_filter_priority (l : List RoutingRule) (p : Int) :
    (l.mergeSort ruleLE).filter (fun rl => rl.priority == p) =
      l.filter (fun rl => rl.priority == p) := by
  have hpair : (l.filter (fun rl => rl.priority == p)).Pairwise
      fun a b => ruleLE a b := by
    apply List.pairwise_of_forall_mem_list
    intro a ha b hb
    have hap : a.priority = p := by
      have := (List.mem_filter.mp ha).2
      simpa using this
    have hbp : b.priority = p := by
      have := (List.mem_filter.mp hb).2
      simpa using this
    simp [ruleLE, hap, hbp]
  have h1 : List.Sublist (l.filter (fun rl => rl.priority == p))
      (l.mergeSort ruleLE) :=
    List.sublist_mergeSort ruleLE_trans ruleLE_total hpair (List.filter_sublist l)
  have hself : (l.filter (fun rl => rl.priority == p)).filter
      (fun rl => rl.priority == p) = l.filter (fun rl => rl.priority == p) := by
    rw [List.filter_eq_self]
    intro a ha
    exact (List.mem_filter.mp ha).2
  have h2 : List.Sublist (l.filter (fun rl => rl.priority == p))
      ((l.mergeSort ruleLE).filter (fun rl => rl.priority == p)) := by
    have := h1.filter (fun rl => rl.priority == p)
    rwa [hself] at this
  have hlen : ((l.mergeSort ruleLE).filter (fun rl => rl.priority == p)).length =
      (l.filter (fun rl => rl.priority == p)).length := by
    rw [← List.countP_eq_length_filter, ← List.countP_eq_length_filter]
    exact (List.mergeSort_perm l ruleLE).countP_eq _
  exact (h2.eq_of_length hlen.symm).symm

/-- C7: starting from any priority-sorted rule list, after any sequence of
`add_routing_rule` calls the rule list is non-increasing in priority, and
rules of equal priority appear in insertion order (the per-priority
subsequence equals that of the unsorted insertion sequence) — the sort is
stable. -/
theorem rules_sorted_stable (r0 : AgentRouter) (toAdd : List RoutingRule)
    (h0 : r0.routing_rules.Pairwise fun a b => b.priority ≤ a.priority) :
    ((toAdd.foldl addRoutingRule r0).routing_rules.Pairwise
      fun a b => b.priority ≤ a.priority)
    ∧ ∀ p : Int,
        (toAdd.foldl addRoutingRule r0).routing_rules.filter
            (fun rl => rl.priority == p) =
          (r0.routing_rules ++ toAdd).filter (fun rl => rl.priority == p) := by
  induction toAdd generalizing r0 with
  | nil =>
    exact ⟨h0, fun p => by rw [List.foldl_nil, List.append_nil]⟩
  | cons d ds ih =>
    have hsort1 : (addRoutingRule r0 d).routing_rules.Pairwise
        fun a b => b.priority ≤ a.priority := by
      have := List.sorted_mergeSort ruleLE_trans ruleLE_total
        (r0.routing_rules ++ [d])
      apply this.imp
      intro a b hab
      simpa [ruleLE] using hab
    have hrec := ih (addRoutingRule r0 d) hsort1
    rw [List.foldl_cons]
    refine ⟨hrec.1, fun p => ?_⟩
    rw [hrec.2 p]
    have hstable : (addRoutingRule r0 d).routing_rules.filter
        (fun rl => rl.priority == p) =
        (r0.routing_rules ++ [d]).filter (fun rl => rl.priority == p) :=
      mergeSort_filter_priority (r0.routing_rules ++ [d]) p
    rw [List.filter_append, hstable, List.filter_append, List.filter_append,
      List.append_assoc, ← List.filter_append]
    rfl

/-- Witness for C7: pushing three rules of equal (default) priority onto an
empty, trivially sorted router. -/
theorem rules_sorted_stable_check :
    ((([alwaysRule ["analyst"] .SEQUENTIAL, alwaysRule ["coder"] .SEQUENTIAL,
        neverRule ["reviewer"] .PARALLEL]).foldl addRoutingRule
        ⟨[], [], [], {}⟩).routing_rules.Pairwise
      fun a b => b.priority ≤ a.priority)
    ∧ ∀ p : Int,
        (([alwaysRule ["analyst"] .SEQUENTIAL, alwaysRule ["coder"] .SEQUENTIAL,
          neverRule ["reviewer"] .PARALLEL]).foldl addRoutingRule
          ⟨[], [], [], {}⟩).routing_rules.filter (fun rl => rl.priority == p) =
        (([] : List RoutingRule) ++
          [alwaysRule ["analyst"] .SEQUENTIAL, alwaysRule ["coder"] .SEQUENTIAL,
           neverRule ["reviewer"] .PARALLEL]).filter (fun rl => rl.priority == p) :=
  rules_sorted_stable ⟨[], [], [], {}⟩
    [alwaysRule ["analyst"] .SEQUENTIAL, alwaysRule ["coder"] .SEQUENTIAL,
     neverRule ["reviewer"] .PARALLEL] (by simp)

/-- C4: a routing miss is silent: for every router and message, when no rule
matches, or when the highest-priority matching rule has no registered target
agent, `route_message` returns the empty list and the router — stats
included — unchanged, raising nothing and producing no error object; in
particular, under the default rule set alone, any message whose lowercased
stringified content contains none of the configured keywords and is at most
200 characters long matches no rule and routes to the empty list. -/
theorem route_miss_empty :
    (∀ (router : AgentRouter) (msg : Message),
        router.routing_rules.filter (fun rl => rl.condition msg) = [] →
        routeMessage router msg = ([], router))
    ∧ (∀ (router : AgentRouter) (msg : Message) (rule : RoutingRule)
        (rest : List RoutingRule),
        router.routing_rules.filter (fun rl => rl.condition msg) = rule :: rest →
        rule.target_agents.filter (fun aid => router.hasAgent aid) = [] →
        routeMessage router msg = ([], router))
    ∧ ∀ (agents : List (String × Agent)) (st : Stats) (msg : Message),
        (∀ kw ∈ defaultKeywords, strContains (pyLower msg.content) kw = false) →
        msg.content.length ≤ 200 →
        routeMessage (defaultRouter agents st) msg = ([], defaultRouter agents st) := by
  have hnomatch : ∀ (router : AgentRouter) (msg : Message),
      router.routing_rules.filter (fun rl => rl.condition msg) = [] →
      routeMessage router msg = ([], router) := by
    intro router msg h
    simp [routeMessage, h]
  refine ⟨hnomatch, ?_, ?_⟩
  · intro router msg rule rest hm ha
    simp [routeMessage, hm, ha]
  · intro agents st msg hkw hlen
    have hany : ∀ kws : List String, (∀ kw ∈ kws, kw ∈ defaultKeywords) →
        (kws.any fun kw => strContains (pyLower msg.content) kw) = false := by
      intro kws hsub
      rw [List.any_eq_false]
      intro kw hkwm
      simp [hkw kw (hsub kw hkwm)]
    have hmem : ∀ rl ∈ (defaultRouter agents st).routing_rules,
        rl.condition msg = false := by
      intro rl hrl
      have hperm := addRules_perm defaultRules
        { agents := agents, routing_rules := [], stats := st }
      have hd : rl ∈ defaultRules := by
        have := hperm.mem_iff.mp hrl
        simpa using this
      have hcases := hd
      simp only [defaultRules, List.mem_cons, List.not_mem_nil, or_false] at hcases
      rcases hcases with h | h | h | h | h | h | h <;> subst h
      · simp [is_data_analysis, hany analysisKeywords (by decide)]
      · simp [is_code_generation, hany codeGenKeywords (by decide)]
      · simp [is_code_review, hany codeReviewKeywords (by decide)]
      · simp [is_project_management, hany projectMgmtKeywords (by decide)]
      · simp [is_idea_generation, hany ideaKeywords (by decide)]
      · simp [is_quality_assessment, hany qualityKeywords (by decide)]
      · simp [is_complex_task, Nat.not_lt.mpr hlen]
    have hfilter : (defaultRouter agents st).routing_rules.filter
        (fun rl => rl.condition msg) = [] := by
      rw [List.filter_eq_nil_iff]
      intro rl hrl
      simp [hmem rl hrl]
    exact hnomatch _ _ hfilter

/-- Witness for C4: a message matched by no rule, a matching rule whose only
target (`ghost`) is unregistered, and the keyword-free TASK message under the
default rule set all route to the empty list with the router unchanged. -/
theorem route_miss_empty_check :
    routeMessage wNoRuleRouter wMsg = ([], wNoRuleRouter)
    ∧ routeMessage wNoTgtRouter wMsg = ([], wNoTgtRouter)
    ∧ routeMessage (defaultRouter wAgents {}) wMsg =
        ([], defaultRouter wAgents {}) :=
  ⟨route_miss_empty.1 wNoRuleRouter wMsg rfl,
   route_miss_empty.2.1 wNoTgtRouter wMsg (alwaysRule ["ghost"] .BROADCAST) []
     rfl (by decide),
   route_miss_empty.2.2 wAgents {} wMsg (by decide) (by decide)⟩

end AgentRouterModel
